import Mathlib

/-
Verification of the ev3dev-web-server browser client (website main script,
the LED/coalescing-aware variant).  The development shallowly embeds:
  * JavaScript plain objects with string keys as insertion-ordered
    association lists (assignment to an existing key keeps its position,
    a new key is appended; Object.values yields values in that order),
  * the Device class family (attributeValues / attributeSetters /
    attributeSenders, onDeviceDisconnected, updateValues, onUpdateValue),
  * the WebSocket sync channel (nonOverridableWebSocketMessages,
    overridableWebSocketMessages, hasReceivedNext, sendToServer, and the
    "next" branch of the ws message listener),
  * the message listener's snapshot dispatch, with JavaScript exceptions
    made explicit as an error component of the result.
-/

namespace Ev3Web

/-- JSON-like values, as produced by JSON.parse / consumed by JSON.stringify. -/
inductive Json where
  | str (s : String)
  | num (q : Rat)
  | arr (elems : List Json)
  | obj (fields : List (String × Json))

/-- Property read `o[key]` on a JS object embedded as an association list. -/
def lookupStr {α : Type} (key : String) : List (String × α) → Option α
  | [] => none
  | (k, v) :: rest => if key = k then some v else lookupStr key rest

/-- Property write `o[key] = v` on a JS object: an existing key keeps its
position and gets the new value, a fresh key is appended. -/
def objInsert {α : Type} (key : String) (v : α) : List (String × α) → List (String × α)
  | [] => [(key, v)]
  | (k, w) :: rest => if k = key then (k, v) :: rest else (k, w) :: objInsert key v rest

/-- `Object.values(o)`: the values of a JS object in key-insertion order. -/
def objValues {α : Type} (l : List (String × α)) : List α :=
  l.map Prod.snd

/-- Attribute values sent by the server: a plain string, a list of strings,
or an object holding a list of values and a selected value. -/
inductive Value where
  | str (s : String)
  | list (items : List String)
  | obj (values : List String) (selected : Option String)

/-- The concrete AttributeSetter subclasses of the source, as far as their
`set` return value (the value cached in `attributeValues`) is concerned. -/
inductive SetterKind where
  | input
  | predefinedSelect
  | select
  | driverName
  | motorPosition
  | sensorValues

/-- The value returned by `set` (the value stored into `attributeValues`).
All subclasses except SelectAttributeSetter end in `return super.set(value)`,
i.e. they return their argument.  SelectAttributeSetter returns the argument
for a bare string, `null` for a bare list (nothing selected), and the
`selected` member for a {values, selected} object; for `null` it falls
through to `super.set(null)`. -/
def storedValue : SetterKind → Option Value → Option Value
  | SetterKind.select, some (Value.str s) => some (Value.str s)
  | SetterKind.select, some (Value.list _) => none
  | SetterKind.select, some (Value.obj _ selected) => selected.map Value.str
  | SetterKind.select, none => none
  | _, v => v

/-- Observable state of one AttributeSetter: its class, its disabled flag,
and the argument of the most recent `set` call (`none` encodes `set(null)`;
the constructor calls `set(null)`, so a last argument always exists). -/
structure SetterState where
  kind : SetterKind
  disabled : Bool
  lastSet : Option Value

/-- Observable state of one AttributeSender: its disabled flag. -/
structure SenderState where
  disabled : Bool

/-- Observable state of one Device: the value cache and the per-attribute
setter / sender maps (JS objects keyed by attribute name). -/
structure DeviceState where
  attributeValues : List (String × Option Value)
  attributeSetters : List (String × SetterState)
  attributeSenders : List (String × SenderState)

/-- `Device.onDeviceDisconnected()`: clear `attributeValues`, call
`set(null)` and `setDisabled(true)` on every setter, `setDisabled(true)`
on every sender. -/
def onDeviceDisconnected (d : DeviceState) : DeviceState :=
  { attributeValues := [],
    attributeSetters := d.attributeSetters.map
      (fun p => (p.1, { kind := p.2.kind, disabled := true, lastSet := none })),
    attributeSenders := d.attributeSenders.map (fun p => (p.1, { disabled := true })) }

/-- The for-loop of `Device.updateValues`: for each `[attrName, attrValue]`
entry, look the setter up; if absent, report the name (console.error) and
continue; otherwise store `setter.set(attrValue)` into
`attributeValues[attrName]` and enable the setter.  Returns the updated
device together with the reported missing-attribute names in order. -/
def updateValuesLoop : DeviceState → List (String × Value) → DeviceState × List String
  | d, [] => (d, [])
  | d, (attrName, attrValue) :: rest =>
    match lookupStr attrName d.attributeSetters with
    | none =>
      ((updateValuesLoop d rest).1, attrName :: (updateValuesLoop d rest).2)
    | some st =>
      updateValuesLoop
        { d with
          attributeValues :=
            objInsert attrName (storedValue st.kind (some attrValue)) d.attributeValues,
          attributeSetters :=
            objInsert attrName
              { kind := st.kind, disabled := false, lastSet := some attrValue }
              d.attributeSetters }
        rest

/-- `Device.updateValues(values)`: run the entry loop, then enable every
sender unconditionally. -/
def updateValues (d : DeviceState) (values : List (String × Value)) :
    DeviceState × List String :=
  ({ (updateValuesLoop d values).1 with
      attributeSenders :=
        (updateValuesLoop d values).1.attributeSenders.map (fun p => (p.1, { disabled := false })) },
   (updateValuesLoop d values).2)

/-- The three Device subclasses of the source (getDeviceType values
"motor", "sensor", "led"). -/
inductive DeviceKind where
  | motor
  | sensor
  | led

/-- `getDeviceType()` of each subclass. -/
def getDeviceType : DeviceKind → String
  | DeviceKind.motor => "motor"
  | DeviceKind.sensor => "sensor"
  | DeviceKind.led => "led"

/-- The message object built by `Device.onUpdateValue`:
`{ type: getDeviceType(), port: this.port, attributes: { [attrName]: newValue } }`. -/
def deviceMessage (kind : DeviceKind) (port attrName newValue : String) : Json :=
  Json.obj
    [("type", Json.str (getDeviceType kind)),
     ("port", Json.str port),
     ("attributes", Json.obj [(attrName, Json.str newValue)])]

/-- `onUpdateValue`'s call into `funcSendToServer`: the message together
with the `identification` argument.  The base class (used by MotorDevice
and SensorDevice) passes no identification (defaulting to null);
LedDevice overrides `onUpdateValue` and passes `this.port`. -/
def onUpdateValueSend (kind : DeviceKind) (port attrName newValue : String) :
    Json × Option String :=
  match kind with
  | DeviceKind.led => (deviceMessage DeviceKind.led port attrName newValue, some port)
  | DeviceKind.motor => (deviceMessage DeviceKind.motor port attrName newValue, none)
  | DeviceKind.sensor => (deviceMessage DeviceKind.sensor port attrName newValue, none)

/-- The message built by the joystick interval callback:
`{ type: "rc-joystick:set-pos", x: currentX / circleRadius, y: -currentY / circleRadius }`
(submitted with identification "rc-joystick:set-pos"). -/
def joystickMessage (x y : Rat) : Json :=
  Json.obj [("type", Json.str "rc-joystick:set-pos"), ("x", Json.num x), ("y", Json.num y)]

/-- Whether a JSON value is an object with string `type`, string `port`
and object-valued `attributes` members. -/
def hasMessageShape : Json → Bool
  | Json.obj fields =>
    (match lookupStr "type" fields with
      | some (Json.str _) => true
      | _ => false) &&
    (match lookupStr "port" fields with
      | some (Json.str _) => true
      | _ => false) &&
    (match lookupStr "attributes" fields with
      | some (Json.obj _) => true
      | _ => false)
  | _ => false

/-- The field names of a JSON object. -/
def jsonFields : Json → List String
  | Json.obj fields => fields.map Prod.fst
  | _ => []

/-- The messages (with their `identification` argument) that the client
can hand to `sendToServer`: any device's `onUpdateValue` submission, or
the periodic joystick sample. -/
inductive Producible : Json → Option String → Prop
  | device (kind : DeviceKind) (port attrName newValue : String) :
      Producible (onUpdateValueSend kind port attrName newValue).1
        (onUpdateValueSend kind port attrName newValue).2
  | joystick (x y : Rat) :
      Producible (joystickMessage x y) (some "rc-joystick:set-pos")

/-- The sync-channel state: the two outbound queues and the ready flag,
exactly the module-level mutable state of the source. -/
structure Channel where
  nonOverridableWebSocketMessages : List Json
  overridableWebSocketMessages : List (String × Json)
  hasReceivedNext : Bool

/-- The batch assembled at flush time:
`messages.push(...nonOverridableWebSocketMessages);`
`messages.push(...Object.values(overridableWebSocketMessages))`. -/
def batchOf (s : Channel) : List Json :=
  s.nonOverridableWebSocketMessages ++ objValues s.overridableWebSocketMessages

/-- The first half of `sendToServer`: push the message on the
non-overridable queue when `identification` is null, otherwise overwrite
`overridableWebSocketMessages[identification]`. -/
def enqueueMessage (s : Channel) (message : Json) (identification : Option String) : Channel :=
  match identification with
  | none =>
    { s with nonOverridableWebSocketMessages := s.nonOverridableWebSocketMessages ++ [message] }
  | some k =>
    { s with overridableWebSocketMessages := objInsert k message s.overridableWebSocketMessages }

/-- `sendToServer(message, identification)`: enqueue, then, if
`hasReceivedNext`, clear the flag, drain both queues and transmit them as
one batch.  The transmitted batch (the argument of `ws.send`) is returned
as the second component, `none` meaning no send happened. -/
def sendToServer (s : Channel) (message : Json) (identification : Option String) :
    Channel × Option (List Json) :=
  let s1 := enqueueMessage s message identification
  if s1.hasReceivedNext then
    ({ nonOverridableWebSocketMessages := [], overridableWebSocketMessages := [],
       hasReceivedNext := false },
     some (batchOf s1))
  else
    (s1, none)

/-- The `event.data === "next"` branch of the ws message listener: drain
both queues; if the batch is empty, set `hasReceivedNext` and send
nothing, otherwise transmit the batch with the flag left cleared. -/
def receiveNext (s : Channel) : Channel × Option (List Json) :=
  if (batchOf s).length = 0 then
    ({ nonOverridableWebSocketMessages := [], overridableWebSocketMessages := [],
       hasReceivedNext := true },
     none)
  else
    ({ nonOverridableWebSocketMessages := [], overridableWebSocketMessages := [],
       hasReceivedNext := false },
     some (batchOf s))

/-- A channel event: an inbound "next" control token, or a local
`sendToServer(message, identification)` call. -/
inductive Event where
  | next
  | enqueue (message : Json) (identification : Option String)

/-- One channel operation: the state transition together with the
optionally transmitted batch. -/
def step (s : Channel) : Event → Channel × Option (List Json)
  | Event.next => receiveNext s
  | Event.enqueue message identification => sendToServer s message identification

/-- Whether an event is a local enqueue (a `sendToServer` call). -/
def isEnqueue : Event → Bool
  | Event.next => false
  | Event.enqueue _ _ => true

/-- Run a sequence of channel events, collecting the transmitted batches
in order. -/
def runSteps (s : Channel) : List Event → Channel × List (List Json)
  | [] => (s, [])
  | e :: rest =>
    ((runSteps (step s e).1 rest).1,
     match (step s e).2 with
     | none => (runSteps (step s e).1 rest).2
     | some b => b :: (runSteps (step s e).1 rest).2)

/-- The channel state right after the connection opens: both queues
empty, `hasReceivedNext = false`. -/
def chanInit : Channel :=
  { nonOverridableWebSocketMessages := [], overridableWebSocketMessages := [],
    hasReceivedNext := false }

/-- JavaScript exceptions the message listener can raise: the
SyntaxError of `JSON.parse` on an undecodable payload, and the TypeError
of calling a method on `undefined` (unknown port) or iterating a
non-iterable payload. -/
inductive JsError where
  | parseError
  | typeError

/-- The payload under one key of a decoded snapshot frame: a list of port
strings (the `disconnected_devices` case) or an attribute map. -/
inductive Payload where
  | ports (l : List String)
  | attrs (m : List (String × Value))

/-- `Object.entries` of a payload as passed to `updateValues`: an
attribute object yields its entries, an array yields index/value pairs. -/
def entriesOfPayload : Payload → List (String × Value)
  | Payload.attrs m => m
  | Payload.ports l => l.enum.map (fun p => (toString p.1, Value.str p.2))

/-- An inbound frame as the listener sees it: the literal "next" token, a
frame whose payload parses as a JSON object, or an undecodable payload on
which `JSON.parse` throws. -/
inductive RawFrame where
  | next
  | json (entries : List (String × Payload))
  | undecodable

/-- The `for (let disconnectedPort of deviceData)` loop of the listener:
call `onDeviceDisconnected()` on each named device; an unregistered port
makes `devices[disconnectedPort]` undefined and the method call throw a
TypeError, aborting the loop. -/
def disconnectAll :
    List (String × DeviceState) → List String → List (String × DeviceState) × Option JsError
  | devices, [] => (devices, none)
  | devices, p :: rest =>
    match lookupStr p devices with
    | none => (devices, some JsError.typeError)
    | some d => disconnectAll (objInsert p (onDeviceDisconnected d) devices) rest

/-- The `for (let [port, deviceData] of Object.entries(data))` loop of
the listener: dispatch `disconnected_devices` entries to the disconnect
loop and every other entry to `devices[port].updateValues(deviceData)`;
an unregistered port throws a TypeError and aborts the loop. -/
def processEntries :
    List (String × DeviceState) → List (String × Payload) →
      List (String × DeviceState) × Option JsError
  | devices, [] => (devices, none)
  | devices, (port, payload) :: rest =>
    if port = "disconnected_devices" then
      match payload with
      | Payload.attrs _ => (devices, some JsError.typeError)
      | Payload.ports l =>
        match disconnectAll devices l with
        | (devices1, none) => processEntries devices1 rest
        | (devices1, some e) => (devices1, some e)
    else
      match lookupStr port devices with
      | none => (devices, some JsError.typeError)
      | some d =>
        processEntries
          (objInsert port (updateValues d (entriesOfPayload payload)).1 devices) rest

/-- The whole ws message listener on one inbound frame: returns the device
map, the channel state, the transmitted batch if any, and the exception
that escaped the listener if any (JS side effects made before a throw
persist; the listener has no try/catch). -/
def handleMessage (devices : List (String × DeviceState)) (s : Channel) :
    RawFrame →
      List (String × DeviceState) × Channel × Option (List Json) × Option JsError
  | RawFrame.next => (devices, (receiveNext s).1, (receiveNext s).2, none)
  | RawFrame.undecodable => (devices, s, none, some JsError.parseError)
  | RawFrame.json entries =>
    ((processEntries devices entries).1, s, none, (processEntries devices entries).2)

/- ===================== helper lemmas ===================== -/

theorem lookupStr_objInsert_self {α : Type} (k : String) (v : α) (l : List (String × α)) :
    lookupStr k (objInsert k v l) = some v := by
  induction l with
  | nil => simp [objInsert, lookupStr]
  | cons p rest ih =>
    by_cases h : p.1 = k
    · simp [objInsert, lookupStr, h]
    · have h' : ¬ k = p.1 := fun hk => h hk.symm
      simp [objInsert, lookupStr, h, h', ih]

theorem lookupStr_objInsert_ne {α : Type} (n k : String) (v : α) (l : List (String × α))
    (h : ¬ n = k) : lookupStr n (objInsert k v l) = lookupStr n l := by
  induction l with
  | nil => simp [objInsert, lookupStr, h]
  | cons p rest ih =>
    by_cases hp : p.1 = k
    · subst hp
      simp [objInsert, lookupStr, h, ih]
    · by_cases hn : n = p.1
      · simp [objInsert, lookupStr, hp, hn]
      · simp [objInsert, lookupStr, hp, hn, ih]

theorem objInsert_objInsert_same {α : Type} (k : String) (v1 v2 : α) (l : List (String × α)) :
    objInsert k v2 (objInsert k v1 l) = objInsert k v2 l := by
  induction l with
  | nil => simp [objInsert]
  | cons p rest ih =>
    by_cases hp : p.1 = k
    · simp [objInsert, hp]
    · simp [objInsert, hp, ih]

theorem mem_objValues {α : Type} (x : α) (l : List (String × α)) :
    x ∈ objValues l ↔ ∃ p ∈ l, p.2 = x := by
  simp [objValues, List.mem_map]

theorem mem_objValues_objInsert {α : Type} (x : α) (k : String) (v : α)
    (l : List (String × α)) (h : x ∈ objValues (objInsert k v l)) :
    x = v ∨ x ∈ objValues l := by
  induction l with
  | nil =>
    simp [objInsert, objValues] at h
    exact Or.inl h
  | cons p rest ih =>
    by_cases hp : p.1 = k
    · simp [objInsert, hp, objValues] at h
      rcases h with h | h
      · exact Or.inl h
      · exact Or.inr (by simp [objValues, h])
    · simp [objInsert, hp, objValues] at h
      rcases h with h | h
      · exact Or.inr (by simp [objValues, h])
      · rcases ih (by simpa [objValues] using h) with h' | h'
        · exact Or.inl h'
        · exact Or.inr (by simp [objValues] at h' ⊢; exact Or.inr h')

theorem self_mem_objValues_objInsert {α : Type} (k : String) (v : α) (l : List (String × α)) :
    v ∈ objValues (objInsert k v l) := by
  induction l with
  | nil => simp [objInsert, objValues]
  | cons p rest ih =>
    by_cases hp : p.1 = k
    · simp [objInsert, hp, objValues]
    · simp [objInsert, hp, objValues] at ih ⊢
      exact Or.inr ih

theorem filter_key_eq_nil {α : Type} (k : String) (l : List (String × α))
    (h : k ∉ l.map Prod.fst) : l.filter (fun p => p.1 == k) = [] := by
  induction l with
  | nil => rfl
  | cons p rest ih =>
    simp only [List.map_cons, List.mem_cons] at h
    push_neg at h
    have hne : (p.1 == k) = false := by
      simp [beq_iff_eq]
      exact fun hk => h.1 hk.symm
    simp [List.filter, hne, ih h.2]

theorem filter_key_objInsert {α : Type} (k : String) (v : α) (l : List (String × α))
    (h : (l.map Prod.fst).Nodup) :
    ((objInsert k v l).filter (fun p => p.1 == k)).length = 1 := by
  induction l with
  | nil => simp [objInsert]
  | cons p rest ih =>
    simp only [List.map_cons, List.nodup_cons] at h
    by_cases hp : p.1 = k
    · have : rest.filter (fun q => q.1 == k) = [] := by
        apply filter_key_eq_nil
        rw [← hp]
        exact h.1
      simp [objInsert, hp, List.filter, this]
    · have hne : (p.1 == k) = false := by simp [beq_iff_eq, hp]
      simp [objInsert, hp, List.filter, hne, ih h.2]

theorem enqueueMessage_hasReceivedNext (s : Channel) (m : Json) (ident : Option String) :
    (enqueueMessage s m ident).hasReceivedNext = s.hasReceivedNext := by
  cases ident <;> rfl

theorem step_enqueue_not_ready (s : Channel) (e : Event) (he : isEnqueue e = true) :
    (step s e).1.hasReceivedNext = false := by
  cases e with
  | next => simp [isEnqueue] at he
  | enqueue m ident =>
    simp only [step, sendToServer]
    cases h : (enqueueMessage s m ident).hasReceivedNext <;> simp [h]

theorem step_enqueue_no_send (s : Channel) (m : Json) (ident : Option String)
    (h : s.hasReceivedNext = false) :
    step s (Event.enqueue m ident) = (enqueueMessage s m ident, none) := by
  simp [step, sendToServer, enqueueMessage_hasReceivedNext, h]

theorem runSteps_no_send (s : Channel) (events : List Event)
    (h : s.hasReceivedNext = false) (he : ∀ e ∈ events, isEnqueue e = true) :
    (runSteps s events).2 = [] := by
  induction events generalizing s with
  | nil => rfl
  | cons e rest ih =>
    have hee : isEnqueue e = true := he e (List.mem_cons_self e rest)
    cases e with
    | next => simp [isEnqueue] at hee
    | enqueue m ident =>
      have hst := step_enqueue_no_send s m ident h
      have hready : (enqueueMessage s m ident).hasReceivedNext = false := by
        rw [enqueueMessage_hasReceivedNext]; exact h
      simp only [runSteps, hst]
      exact ih (enqueueMessage s m ident) hready
        (fun x hx => he x (List.mem_cons_of_mem _ hx))

theorem updateValuesLoop_senders (d : DeviceState) (values : List (String × Value)) :
    (updateValuesLoop d values).1.attributeSenders = d.attributeSenders := by
  induction values generalizing d with
  | nil => rfl
  | cons nv rest ih =>
    obtain ⟨n0, v0⟩ := nv
    cases h : lookupStr n0 d.attributeSetters with
    | none =>
      simp only [updateValuesLoop, h]
      exact ih d
    | some st =>
      simp only [updateValuesLoop, h]
      exact ih _

theorem updateValuesLoop_errors (d : DeviceState) (values : List (String × Value)) :
    (updateValuesLoop d values).2 =
      (values.filter (fun p => (lookupStr p.1 d.attributeSetters).isNone)).map Prod.fst := by
  induction values generalizing d with
  | nil => rfl
  | cons nv rest ih =>
    obtain ⟨n0, v0⟩ := nv
    cases h : lookupStr n0 d.attributeSetters with
    | none =>
      simp only [updateValuesLoop, h]
      rw [List.filter_cons_of_pos (by simp [h])]
      simp only [List.map_cons, List.cons.injEq]
      exact ⟨trivial, ih d⟩
    | some st =>
      simp only [updateValuesLoop, h]
      rw [List.filter_cons_of_neg (by simp [h]), ih]
      have hpt : ∀ x ∈ rest,
          ((lookupStr x.1
            (objInsert n0 { kind := st.kind, disabled := false, lastSet := some v0 }
              d.attributeSetters)).isNone)
          = ((lookupStr x.1 d.attributeSetters).isNone) := by
        intro x _
        by_cases hx1 : x.1 = n0
        · rw [hx1, lookupStr_objInsert_self, h]
          rfl
        · rw [lookupStr_objInsert_ne x.1 n0 _ _ hx1]
      rw [List.filter_congr hpt]

theorem updateValuesLoop_not_mem (d : DeviceState) (values : List (String × Value))
    (n : String) (h : n ∉ values.map Prod.fst) :
    lookupStr n (updateValuesLoop d values).1.attributeValues
      = lookupStr n d.attributeValues ∧
    lookupStr n (updateValuesLoop d values).1.attributeSetters
      = lookupStr n d.attributeSetters := by
  induction values generalizing d with
  | nil => exact ⟨rfl, rfl⟩
  | cons nv rest ih =>
    obtain ⟨n0, v0⟩ := nv
    simp only [List.map_cons, List.mem_cons] at h
    push_neg at h
    obtain ⟨hn0, hrest⟩ := h
    cases hl : lookupStr n0 d.attributeSetters with
    | none =>
      simp only [updateValuesLoop, hl]
      exact ih d hrest
    | some st =>
      simp only [updateValuesLoop, hl]
      refine ⟨?_, ?_⟩
      · rw [(ih _ hrest).1]
        exact lookupStr_objInsert_ne n n0 _ _ hn0
      · rw [(ih _ hrest).2]
        exact lookupStr_objInsert_ne n n0 _ _ hn0

theorem updateValuesLoop_found (d : DeviceState) (values : List (String × Value))
    (hnodup : (values.map Prod.fst).Nodup) :
    ∀ nv ∈ values, ∀ st, lookupStr nv.1 d.attributeSetters = some st →
      lookupStr nv.1 (updateValuesLoop d values).1.attributeValues
        = some (storedValue st.kind (some nv.2)) ∧
      lookupStr nv.1 (updateValuesLoop d values).1.attributeSetters
        = some { kind := st.kind, disabled := false, lastSet := some nv.2 } := by
  induction values generalizing d with
  | nil =>
    intro nv hmem
    simp at hmem
  | cons nv0 rest ih =>
    obtain ⟨n0, v0⟩ := nv0
    simp only [List.map_cons, List.nodup_cons] at hnodup
    obtain ⟨hn0, hrest⟩ := hnodup
    intro nv hmem st hst
    rcases List.mem_cons.mp hmem with heq | hmem'
    · subst heq
      simp only at hst
      simp only [updateValuesLoop, hst]
      refine ⟨?_, ?_⟩
      · rw [(updateValuesLoop_not_mem _ rest n0 hn0).1]
        exact lookupStr_objInsert_self n0 _ d.attributeValues
      · rw [(updateValuesLoop_not_mem _ rest n0 hn0).2]
        exact lookupStr_objInsert_self n0 _ d.attributeSetters
    · cases hl : lookupStr n0 d.attributeSetters with
      | none =>
        simp only [updateValuesLoop, hl]
        exact ih d hrest nv hmem' st hst
      | some st0 =>
        have hne : nv.1 ≠ n0 := by
          intro hcontra
          apply hn0
          rw [← hcontra]
          exact List.mem_map_of_mem Prod.fst hmem'
        simp only [updateValuesLoop, hl]
        refine ih _ hrest nv hmem' st ?_
        rw [show ({ d with
            attributeValues :=
              objInsert n0 (storedValue st0.kind (some v0)) d.attributeValues,
            attributeSetters :=
              objInsert n0 { kind := st0.kind, disabled := false, lastSet := some v0 }
                d.attributeSetters } : DeviceState).attributeSetters
          = objInsert n0 { kind := st0.kind, disabled := false, lastSet := some v0 }
              d.attributeSetters from rfl]
        rw [lookupStr_objInsert_ne nv.1 n0 _ _ hne]
        exact hst

theorem step_preserves_inv (s : Channel) (e : Event)
    (h : s.hasReceivedNext = true →
      s.nonOverridableWebSocketMessages = [] ∧ s.overridableWebSocketMessages = []) :
    ((step s e).1.hasReceivedNext = true →
      (step s e).1.nonOverridableWebSocketMessages = [] ∧
      (step s e).1.overridableWebSocketMessages = []) ∧
    (∀ b, (step s e).2 = some b → b ≠ []) := by
  cases e with
  | next =>
    simp only [step, receiveNext]
    by_cases hb : (batchOf s).length = 0
    · simp [hb]
    · simp only [hb, if_false]
      refine ⟨by simp, ?_⟩
      intro b hbeq
      simp only [Option.some.injEq] at hbeq
      subst hbeq
      intro hnil
      apply hb
      rw [hnil]
      rfl
  | enqueue m ident =>
    simp only [step, sendToServer]
    cases hr : (enqueueMessage s m ident).hasReceivedNext with
    | false => simp [hr]
    | true =>
      have hs : s.hasReceivedNext = true := by
        rw [← enqueueMessage_hasReceivedNext s m ident]
        exact hr
      obtain ⟨h1, h2⟩ := h hs
      simp only [hr, if_true]
      refine ⟨by simp, ?_⟩
      intro b hbeq
      simp only [Option.some.injEq] at hbeq
      subst hbeq
      cases ident with
      | none => simp [batchOf, enqueueMessage, h1, h2, objValues]
      | some k => simp [batchOf, enqueueMessage, h1, h2, objInsert, objValues]

theorem runSteps_preserves_inv (s : Channel) (events : List Event)
    (h : s.hasReceivedNext = true →
      s.nonOverridableWebSocketMessages = [] ∧ s.overridableWebSocketMessages = []) :
    ((runSteps s events).1.hasReceivedNext = true →
      (runSteps s events).1.nonOverridableWebSocketMessages = [] ∧
      (runSteps s events).1.overridableWebSocketMessages = []) ∧
    (∀ b ∈ (runSteps s events).2, b ≠ []) := by
  induction events generalizing s with
  | nil => exact ⟨h, by simp [runSteps]⟩
  | cons e rest ih =>
    have hstep := step_preserves_inv s e h
    have ihr := ih (step s e).1 hstep.1
    simp only [runSteps]
    refine ⟨ihr.1, ?_⟩
    intro b hb
    cases ho : (step s e).2 with
    | none =>
      rw [ho] at hb
      exact ihr.2 b hb
    | some b0 =>
      rw [ho] at hb
      rcases List.mem_cons.mp hb with heq | hmem
      · subst heq
        exact hstep.2 b ho
      · exact ihr.2 b hmem

/- ===================== claims ===================== -/

/-- C1: Stop-and-wait discipline.  A `sendToServer` call while
`hasReceivedNext` is false only enqueues and transmits nothing; a call
while the flag is true immediately drains both queues into one batch,
transmits it and clears the flag; and along any run of local enqueues
(no inbound control token), at most one batch is transmitted. -/
theorem c1_stop_and_wait (s : Channel) (message : Json) (identification : Option String)
    (events : List Event) (henq : ∀ e ∈ events, isEnqueue e = true) :
    (s.hasReceivedNext = false →
      sendToServer s message identification
        = (enqueueMessage s message identification, none)) ∧
    (s.hasReceivedNext = true →
      sendToServer s message identification
        = ({ nonOverridableWebSocketMessages := [], overridableWebSocketMessages := [],
             hasReceivedNext := false },
           some (batchOf (enqueueMessage s message identification)))) ∧
    (runSteps s events).2.length ≤ 1 := by
  refine ⟨?_, ?_, ?_⟩
  · intro h
    simp [sendToServer, enqueueMessage_hasReceivedNext, h]
  · intro h
    simp [sendToServer, enqueueMessage_hasReceivedNext, h]
  · cases events with
    | nil => simp [runSteps]
    | cons e rest =>
      have hee : isEnqueue e = true := henq e (List.mem_cons_self e rest)
      have hrest : ∀ x ∈ rest, isEnqueue x = true :=
        fun x hx => henq x (List.mem_cons_of_mem _ hx)
      have hro : (runSteps (step s e).1 rest).2 = [] :=
        runSteps_no_send _ rest (step_enqueue_not_ready s e hee) hrest
      simp only [runSteps]
      cases ho : (step s e).2 <;> simp [ho, hro]

/-- C1 witness: applying the stop-and-wait theorem at the freshly opened
channel and a single enqueue event. -/
theorem c1_stop_and_wait_witness :
    sendToServer chanInit (Json.str "cmd") none
      = (enqueueMessage chanInit (Json.str "cmd") none, none) ∧
    (runSteps chanInit [Event.enqueue (Json.str "cmd") none]).2.length ≤ 1 :=
  ⟨(c1_stop_and_wait chanInit (Json.str "cmd") none
      [Event.enqueue (Json.str "cmd") none] (by simp [isEnqueue])).1 rfl,
   (c1_stop_and_wait chanInit (Json.str "cmd") none
      [Event.enqueue (Json.str "cmd") none] (by simp [isEnqueue])).2.2⟩

/-- C2: Batch ordering.  Whenever the queues are jointly non-empty, the
control-token flush transmits all non-overridable messages first in their
enqueue order followed by the overridable ones, and leaves both queues
empty; concretely, enqueuing A (non-overridable), B (overridable, key k),
C (non-overridable) and then receiving the token transmits [A, C, B]. -/
theorem c2_batch_ordering (s : Channel) (A B C : Json) (k : String)
    (hne : (batchOf s).length ≠ 0) :
    receiveNext s =
      ({ nonOverridableWebSocketMessages := [], overridableWebSocketMessages := [],
         hasReceivedNext := false },
       some (s.nonOverridableWebSocketMessages
         ++ objValues s.overridableWebSocketMessages)) ∧
    runSteps chanInit
      [Event.enqueue A none, Event.enqueue B (some k), Event.enqueue C none, Event.next]
      = ({ nonOverridableWebSocketMessages := [], overridableWebSocketMessages := [],
           hasReceivedNext := false },
         [[A, C, B]]) := by
  constructor
  · simp only [receiveNext]
    rw [if_neg hne]
    rfl
  · simp [runSteps, step, sendToServer, receiveNext, enqueueMessage, batchOf, objInsert,
      objValues, chanInit]

/-- C2 witness: the ordering theorem applied at a channel with one queued
message and at the concrete letters A, B, C. -/
theorem c2_batch_ordering_witness :
    runSteps chanInit
      [Event.enqueue (Json.str "A") none, Event.enqueue (Json.str "B") (some "k"),
       Event.enqueue (Json.str "C") none, Event.next]
      = ({ nonOverridableWebSocketMessages := [], overridableWebSocketMessages := [],
           hasReceivedNext := false },
         [[Json.str "A", Json.str "C", Json.str "B"]]) :=
  (c2_batch_ordering (Channel.mk [Json.str "A"] [] false) (Json.str "A") (Json.str "B")
    (Json.str "C") "k" (by decide)).2

/-- C3: Coalescing.  Two `sendToServer` calls with the same
identification key before any flush transmit nothing themselves, leave
exactly one overridable entry for that key — the second message — and the
next control-token flush transmits a batch containing the second message
but not the first (which was silently replaced). -/
theorem c3_coalescing (s : Channel) (k : String) (m1 m2 : Json)
    (hready : s.hasReceivedNext = false)
    (hnodup : (s.overridableWebSocketMessages.map Prod.fst).Nodup)
    (hm1non : m1 ∉ s.nonOverridableWebSocketMessages)
    (hm1ov : ∀ p ∈ s.overridableWebSocketMessages, p.2 ≠ m1)
    (hne : m1 ≠ m2) :
    sendToServer s m1 (some k) = (enqueueMessage s m1 (some k), none) ∧
    sendToServer (enqueueMessage s m1 (some k)) m2 (some k)
      = (enqueueMessage (enqueueMessage s m1 (some k)) m2 (some k), none) ∧
    lookupStr k (enqueueMessage (enqueueMessage s m1 (some k)) m2
        (some k)).overridableWebSocketMessages = some m2 ∧
    (((enqueueMessage (enqueueMessage s m1 (some k)) m2
        (some k)).overridableWebSocketMessages).filter (fun p => p.1 == k)).length = 1 ∧
    m2 ∈ batchOf (enqueueMessage (enqueueMessage s m1 (some k)) m2 (some k)) ∧
    m1 ∉ batchOf (enqueueMessage (enqueueMessage s m1 (some k)) m2 (some k)) ∧
    receiveNext (enqueueMessage (enqueueMessage s m1 (some k)) m2 (some k))
      = ({ nonOverridableWebSocketMessages := [], overridableWebSocketMessages := [],
           hasReceivedNext := false },
         some (batchOf (enqueueMessage (enqueueMessage s m1 (some k)) m2 (some k)))) := by
  have hcollapse :
      (enqueueMessage (enqueueMessage s m1 (some k)) m2
        (some k)).overridableWebSocketMessages
      = objInsert k m2 s.overridableWebSocketMessages := by
    simp [enqueueMessage, objInsert_objInsert_same]
  have hnonov :
      (enqueueMessage (enqueueMessage s m1 (some k)) m2
        (some k)).nonOverridableWebSocketMessages
      = s.nonOverridableWebSocketMessages := rfl
  have hm2mem : m2 ∈ batchOf (enqueueMessage (enqueueMessage s m1 (some k)) m2 (some k)) := by
    apply List.mem_append_right
    rw [hcollapse]
    exact self_mem_objValues_objInsert k m2 s.overridableWebSocketMessages
  refine ⟨?_, ?_, ?_, ?_, hm2mem, ?_, ?_⟩
  · simp [sendToServer, enqueueMessage_hasReceivedNext, hready]
  · simp [sendToServer, enqueueMessage_hasReceivedNext, hready]
  · rw [hcollapse]
    exact lookupStr_objInsert_self k m2 s.overridableWebSocketMessages
  · rw [hcollapse]
    exact filter_key_objInsert k m2 s.overridableWebSocketMessages hnodup
  · intro hmem
    rcases List.mem_append.mp hmem with hl | hr
    · rw [hnonov] at hl
      exact hm1non hl
    · rw [hcollapse] at hr
      rcases mem_objValues_objInsert m1 k m2 s.overridableWebSocketMessages hr with h | h
      · exact hne h
      · obtain ⟨p, hp, hp2⟩ := (mem_objValues m1 s.overridableWebSocketMessages).mp h
        exact hm1ov p hp hp2
  · have hlen : (batchOf (enqueueMessage (enqueueMessage s m1 (some k)) m2
        (some k))).length ≠ 0 := by
      intro h0
      have : batchOf (enqueueMessage (enqueueMessage s m1 (some k)) m2 (some k)) = [] :=
        List.length_eq_zero.mp h0
      rw [this] at hm2mem
      simp at hm2mem
    simp [receiveNext, hlen]

/-- C3 witness: the coalescing theorem applied at the freshly opened
channel with key "k" and two distinct messages. -/
theorem c3_coalescing_witness :
    sendToServer chanInit (Json.str "a") (some "k")
      = (enqueueMessage chanInit (Json.str "a") (some "k"), none) ∧
    lookupStr "k" (enqueueMessage (enqueueMessage chanInit (Json.str "a") (some "k"))
        (Json.str "b") (some "k")).overridableWebSocketMessages = some (Json.str "b") :=
  ⟨(c3_coalescing chanInit "k" (Json.str "a") (Json.str "b") rfl (by simp [chanInit])
      (by simp [chanInit]) (by simp [chanInit])
      (by intro h; injection h with h1; exact absurd h1 (by decide))).1,
   (c3_coalescing chanInit "k" (Json.str "a") (Json.str "b") rfl (by simp [chanInit])
      (by simp [chanInit]) (by simp [chanInit])
      (by intro h; injection h with h1; exact absurd h1 (by decide))).2.2.1⟩

/-- C9: Control-token idempotence.  Receiving a control token with both
queues empty sets `hasReceivedNext` and transmits nothing, and a second
token in that state is a no-op. -/
theorem c9_token_idempotent (s : Channel)
    (h1 : s.nonOverridableWebSocketMessages = [])
    (h2 : s.overridableWebSocketMessages = []) :
    receiveNext s =
      ({ nonOverridableWebSocketMessages := [], overridableWebSocketMessages := [],
         hasReceivedNext := true }, none) ∧
    receiveNext (receiveNext s).1 =
      ({ nonOverridableWebSocketMessages := [], overridableWebSocketMessages := [],
         hasReceivedNext := true }, none) := by
  have hfst : receiveNext s =
      ({ nonOverridableWebSocketMessages := [], overridableWebSocketMessages := [],
         hasReceivedNext := true }, none) := by
    simp [receiveNext, batchOf, h1, h2, objValues]
  refine ⟨hfst, ?_⟩
  rw [hfst]
  simp [receiveNext, batchOf, objValues]

/-- C9 witness: the idempotence theorem at the freshly opened channel. -/
theorem c9_token_idempotent_witness :
    receiveNext chanInit =
      ({ nonOverridableWebSocketMessages := [], overridableWebSocketMessages := [],
         hasReceivedNext := true }, none) ∧
    receiveNext (receiveNext chanInit).1 =
      ({ nonOverridableWebSocketMessages := [], overridableWebSocketMessages := [],
         hasReceivedNext := true }, none) :=
  c9_token_idempotent chanInit rfl rfl

/-- C10: Invariant.  From the initial channel state, after any sequence
of channel events, a set `hasReceivedNext` flag implies both queues are
empty, and every transmitted batch is non-empty. -/
theorem c10_ready_implies_empty (events : List Event) :
    ((runSteps chanInit events).1.hasReceivedNext = true →
      (runSteps chanInit events).1.nonOverridableWebSocketMessages = [] ∧
      (runSteps chanInit events).1.overridableWebSocketMessages = []) ∧
    (∀ b ∈ (runSteps chanInit events).2, b ≠ []) :=
  runSteps_preserves_inv chanInit events (by intro h; simp [chanInit] at h)

/-- C10 witness: the invariant theorem applied after one control token
(queues empty while ready) and after a token followed by an enqueue
(the transmitted batch is non-empty). -/
theorem c10_ready_implies_empty_witness :
    (runSteps chanInit [Event.next]).1.nonOverridableWebSocketMessages = [] ∧
    [Json.str "m"] ≠ ([] : List Json) :=
  ⟨((c10_ready_implies_empty [Event.next]).1 (by decide)).1,
   (c10_ready_implies_empty [Event.next, Event.enqueue (Json.str "m") none]).2
     [Json.str "m"]
     (by simp [runSteps, step, receiveNext, sendToServer, enqueueMessage, batchOf,
       objValues, chanInit])⟩

/-- C4 counterexample: the listener has no try/catch, so a snapshot frame
naming an unregistered port makes `devices[port].updateValues` throw a
TypeError that escapes the handler, and an undecodable frame makes
`JSON.parse` throw a SyntaxError that escapes the handler — contradicting
the claim that no exception propagates out of the update pipeline and
that such frames are reported and skipped. -/
theorem c4_counterexample :
    handleMessage [] chanInit (RawFrame.json [("ev3-ports:in1", Payload.attrs [])])
      = ([], chanInit, none, some JsError.typeError) ∧
    handleMessage [] chanInit RawFrame.undecodable
      = ([], chanInit, none, some JsError.parseError) :=
  ⟨rfl, rfl⟩

/-- C4 as amended: an undecodable frame raises out of the listener with
devices, queues and `hasReceivedNext` unchanged; a decodable snapshot
frame never changes the channel state or transmits; and a snapshot whose
first entry names an unregistered (non-reserved) port raises a TypeError,
aborting the remaining entries, with devices and channel unchanged. -/
theorem c4_amended_no_catch (devices : List (String × DeviceState)) (s : Channel)
    (entries : List (String × Payload)) (port : String) (payload : Payload)
    (rest : List (String × Payload))
    (hport : lookupStr port devices = none) (hnot : port ≠ "disconnected_devices") :
    handleMessage devices s RawFrame.undecodable
      = (devices, s, none, some JsError.parseError) ∧
    (handleMessage devices s (RawFrame.json entries)).2.1 = s ∧
    (handleMessage devices s (RawFrame.json entries)).2.2.1 = none ∧
    handleMessage devices s (RawFrame.json ((port, payload) :: rest))
      = (devices, s, none, some JsError.typeError) := by
  refine ⟨rfl, rfl, rfl, ?_⟩
  simp [handleMessage, processEntries, hnot, hport]

/-- C4 witness: the amended theorem applied at the empty device map and
an unregistered port. -/
theorem c4_amended_no_catch_witness :
    handleMessage [] chanInit RawFrame.undecodable
      = ([], chanInit, none, some JsError.parseError) ∧
    handleMessage [] chanInit (RawFrame.json [("ev3-ports:in9", Payload.attrs [])])
      = ([], chanInit, none, some JsError.typeError) :=
  ⟨(c4_amended_no_catch [] chanInit [] "ev3-ports:in9" (Payload.attrs []) [] rfl
      (by decide)).1,
   (c4_amended_no_catch [] chanInit [] "ev3-ports:in9" (Payload.attrs []) [] rfl
      (by decide)).2.2.2⟩

/-- C5: `updateValues` postcondition.  The reported errors are exactly
the entries without a setter (in order, the others are not aborted); each
entry with a setter stores the value returned by that setter's `set` into
`attributeValues` and enables the setter; afterwards every sender of the
device is enabled, including senders for attributes absent from the
update. -/
theorem c5_updateValues (d : DeviceState) (values : List (String × Value))
    (hnodup : (values.map Prod.fst).Nodup) :
    (updateValues d values).2 =
      (values.filter (fun p => (lookupStr p.1 d.attributeSetters).isNone)).map Prod.fst ∧
    (∀ nv ∈ values, ∀ st, lookupStr nv.1 d.attributeSetters = some st →
      lookupStr nv.1 (updateValues d values).1.attributeValues
        = some (storedValue st.kind (some nv.2)) ∧
      lookupStr nv.1 (updateValues d values).1.attributeSetters
        = some { kind := st.kind, disabled := false, lastSet := some nv.2 }) ∧
    (updateValues d values).1.attributeSenders
      = d.attributeSenders.map (fun p => (p.1, { disabled := false })) := by
  refine ⟨updateValuesLoop_errors d values, ?_, ?_⟩
  · intro nv hmem st hst
    exact updateValuesLoop_found d values hnodup nv hmem st hst
  · rw [show (updateValues d values).1.attributeSenders
        = (updateValuesLoop d values).1.attributeSenders.map
            (fun p => (p.1, { disabled := false })) from rfl,
      updateValuesLoop_senders]

/-- C5 witness: a sensor-like device with a "mode" select setter, updated
with a known attribute and an unknown one. -/
theorem c5_updateValues_witness :
    (updateValues
        (DeviceState.mk [] [("mode", SetterState.mk SetterKind.select true none)]
          [("mode", SenderState.mk true), ("command", SenderState.mk true)])
        [("mode", Value.str "US-DIST-CM"), ("bogus", Value.str "x")]).2
      = ["bogus"] ∧
    lookupStr "mode"
        (updateValues
          (DeviceState.mk [] [("mode", SetterState.mk SetterKind.select true none)]
            [("mode", SenderState.mk true), ("command", SenderState.mk true)])
          [("mode", Value.str "US-DIST-CM"), ("bogus", Value.str "x")]).1.attributeValues
      = some (some (Value.str "US-DIST-CM")) ∧
    (updateValues
        (DeviceState.mk [] [("mode", SetterState.mk SetterKind.select true none)]
          [("mode", SenderState.mk true), ("command", SenderState.mk true)])
        [("mode", Value.str "US-DIST-CM"), ("bogus", Value.str "x")]).1.attributeSenders
      = [("mode", SenderState.mk false), ("command", SenderState.mk false)] :=
  ⟨(c5_updateValues
      (DeviceState.mk [] [("mode", SetterState.mk SetterKind.select true none)]
        [("mode", SenderState.mk true), ("command", SenderState.mk true)])
      [("mode", Value.str "US-DIST-CM"), ("bogus", Value.str "x")] (by decide)).1,
   ((c5_updateValues
      (DeviceState.mk [] [("mode", SetterState.mk SetterKind.select true none)]
        [("mode", SenderState.mk true), ("command", SenderState.mk true)])
      [("mode", Value.str "US-DIST-CM"), ("bogus", Value.str "x")] (by decide)).2.1
      ("mode", Value.str "US-DIST-CM") (List.mem_cons_self _ _)
      (SetterState.mk SetterKind.select true none) rfl).1,
   (c5_updateValues
      (DeviceState.mk [] [("mode", SetterState.mk SetterKind.select true none)]
        [("mode", SenderState.mk true), ("command", SenderState.mk true)])
      [("mode", Value.str "US-DIST-CM"), ("bogus", Value.str "x")] (by decide)).2.2⟩

/-- C6: Disconnect reset.  After `onDeviceDisconnected` the value cache
is empty, every setter has last received `set(null)` and is disabled,
every sender is disabled, and a second call leaves the device state
unchanged (idempotence). -/
theorem c6_disconnect_reset (d : DeviceState) :
    (onDeviceDisconnected d).attributeValues = [] ∧
    (∀ p ∈ (onDeviceDisconnected d).attributeSetters,
      p.2.disabled = true ∧ p.2.lastSet = none) ∧
    (∀ p ∈ (onDeviceDisconnected d).attributeSenders, p.2.disabled = true) ∧
    onDeviceDisconnected (onDeviceDisconnected d) = onDeviceDisconnected d := by
  refine ⟨rfl, ?_, ?_, ?_⟩
  · intro p hp
    simp only [onDeviceDisconnected, List.mem_map] at hp
    obtain ⟨q, _, rfl⟩ := hp
    exact ⟨rfl, rfl⟩
  · intro p hp
    simp only [onDeviceDisconnected, List.mem_map] at hp
    obtain ⟨q, _, rfl⟩ := hp
    rfl
  · simp only [onDeviceDisconnected, List.map_map]
    rfl

/-- C6 witness: the reset theorem at a motor-like device with one set,
enabled attribute. -/
theorem c6_disconnect_reset_witness :
    (onDeviceDisconnected
        (DeviceState.mk [("position", some (Value.str "90"))]
          [("position", SetterState.mk SetterKind.motorPosition false
            (some (Value.str "90")))]
          [("position", SenderState.mk false)])).attributeValues = [] ∧
    onDeviceDisconnected (onDeviceDisconnected
        (DeviceState.mk [("position", some (Value.str "90"))]
          [("position", SetterState.mk SetterKind.motorPosition false
            (some (Value.str "90")))]
          [("position", SenderState.mk false)]))
      = onDeviceDisconnected
          (DeviceState.mk [("position", some (Value.str "90"))]
            [("position", SetterState.mk SetterKind.motorPosition false
              (some (Value.str "90")))]
            [("position", SenderState.mk false)]) :=
  ⟨(c6_disconnect_reset
      (DeviceState.mk [("position", some (Value.str "90"))]
        [("position", SetterState.mk SetterKind.motorPosition false
          (some (Value.str "90")))]
        [("position", SenderState.mk false)])).1,
   (c6_disconnect_reset
      (DeviceState.mk [("position", some (Value.str "90"))]
        [("position", SetterState.mk SetterKind.motorPosition false
          (some (Value.str "90")))]
        [("position", SenderState.mk false)])).2.2.2⟩

/-- C7 counterexample: a motor device's duty-cycle slider edit goes
through the base-class `onUpdateValue`, which passes no identification to
`sendToServer` — the submission is non-overridable, refuting the claim
that motor duty-cycle and setpoint edits carry a port+attribute
coalescing key. -/
theorem c7_counterexample :
    (onUpdateValueSend DeviceKind.motor "ev3-ports:outA" "duty_cycle_sp" "42").2 = none :=
  rfl

/-- C7 as amended: only the LED device submits with a coalescing key,
equal to its port; motor and sensor devices — including motor duty-cycle
and setpoint slider edits — always submit non-overridable. -/
theorem c7_amended_policy :
    (∀ port attrName newValue,
      (onUpdateValueSend DeviceKind.led port attrName newValue).2 = some port) ∧
    (∀ port attrName newValue,
      (onUpdateValueSend DeviceKind.motor port attrName newValue).2 = none) ∧
    (∀ port attrName newValue,
      (onUpdateValueSend DeviceKind.sensor port attrName newValue).2 = none) :=
  ⟨fun _ _ _ => rfl, fun _ _ _ => rfl, fun _ _ _ => rfl⟩

/-- C8 counterexample: the joystick sampler's message is producible but
has shape {type, x, y} — it has no port and no attributes member,
refuting the claim that every producible message has the
{type, port, attributes} shape. -/
theorem c8_counterexample :
    Producible (joystickMessage 0 0) (some "rc-joystick:set-pos") ∧
    hasMessageShape (joystickMessage 0 0) = false :=
  ⟨Producible.joystick 0 0, rfl⟩

/-- C8 as amended: every device-originated message has the
{type, port, attributes} shape; the joystick message has exactly the
fields type, x, y; and a transmission only happens on an inbound control
token or on a local enqueue made while the client already holds
ready-to-send status. -/
theorem c8_amended_shape :
    (∀ kind port attrName newValue,
      hasMessageShape (onUpdateValueSend kind port attrName newValue).1 = true) ∧
    (∀ x y : Rat, jsonFields (joystickMessage x y) = ["type", "x", "y"]) ∧
    (∀ s e, (step s e).2 ≠ none →
      e = Event.next ∨ (isEnqueue e = true ∧ s.hasReceivedNext = true)) := by
  refine ⟨?_, ?_, ?_⟩
  · intro kind port attrName newValue
    cases kind <;> rfl
  · intro x y
    rfl
  · intro s e h
    cases e with
    | next => exact Or.inl rfl
    | enqueue m ident =>
      refine Or.inr ⟨rfl, ?_⟩
      cases hr : s.hasReceivedNext with
      | true => rfl
      | false =>
        exact absurd (by rw [step_enqueue_no_send s m ident hr]) h

/-- C8 witness: the amended theorem at an LED brightness message, the
joystick message, and an enqueue on a ready channel. -/
theorem c8_amended_shape_witness :
    hasMessageShape (onUpdateValueSend DeviceKind.led "led:LEFT" "green" "255").1 = true ∧
    jsonFields (joystickMessage 0 0) = ["type", "x", "y"] ∧
    (Event.enqueue (Json.str "m") none = Event.next ∨
      (isEnqueue (Event.enqueue (Json.str "m") none) = true ∧
        (Channel.mk [] [] true).hasReceivedNext = true)) :=
  ⟨c8_amended_shape.1 DeviceKind.led "led:LEFT" "green" "255",
   c8_amended_shape.2.1 0 0,
   c8_amended_shape.2.2 (Channel.mk [] [] true) (Event.enqueue (Json.str "m") none)
     (by simp [step, sendToServer, enqueueMessage])⟩

end Ev3Web
